import Mathlib

/-!
Verification of the salt-ldap repository (two Python modules) against its
natural-language specification.

The development shallowly embeds the two source files:

* `src/auth/ldap.py` — the `auth(username, password)` function, which performs
  a service bind, a user search, and a confirmatory bind with the found DN and
  the user-supplied password.
* `src/pillar/pillar_ldap.py` — `_result_to_dict`, `_do_search` and
  `ext_pillar`, which execute configured LDAP searches and flatten/merge the
  results into a pillar dictionary.

External collaborators (the python-ldap library, jinja2 rendering, the file
system and YAML parsing) are modelled as explicit environment records; the
control flow, dictionary updates and string splitting of the Python code are
translated operation by operation.  Python runtime errors that the code can
raise (CommandExecutionError, NameError, UnboundLocalError, KeyError,
ValueError, raw ldap exceptions) are represented by the `PyErr` type and
`Except PyErr` results.
-/

namespace SaltLdap

/-- Python runtime errors that the embedded code can raise. -/
inductive PyErr where
  /-- `salt.exceptions.CommandExecutionError`, raised by `_LDAPConnection`. -/
  | commandExecutionError : String → PyErr
  /-- Python `NameError`: an unresolved global name at a raise/use site. -/
  | nameError : String → PyErr
  /-- Python `UnboundLocalError`: a local variable read before assignment. -/
  | unboundLocalError : String → PyErr
  /-- Python `KeyError` from a dict subscript. -/
  | keyError : String → PyErr
  /-- Python `ValueError`, e.g. from tuple-unpacking a list of length ≠ 2. -/
  | valueError : String → PyErr
  /-- An exception raised by the underlying python-ldap library. -/
  | ldapError : String → PyErr
deriving DecidableEq

/-- A value stored in the pillar result dictionary: `_result_to_dict` stores
either a single string (`result[k] = v` from a `key=value` item) or the raw
list of attribute values (`result[key] = data.get(key)`). -/
inductive PVal where
  | str : String → PVal
  | list : List String → PVal
deriving DecidableEq

/-- A Python dict with string keys, as an insertion-ordered association list
without duplicate keys (every dict below is built from `[]` by `dictSet`). -/
abbrev Dict := List (String × PVal)

/-- Python dict lookup `d[k]` / `d.get(k)` (first match; dicts built by
`dictSet` never hold duplicate keys). -/
def dictGet : Dict → String → Option PVal
  | [], _ => none
  | (k', v) :: rest, k => if k' = k then some v else dictGet rest k

/-- Python dict assignment `d[k] = v`: overwrite the entry for `k` in place if
present, otherwise append a new entry (insertion order semantics). -/
def dictSet : Dict → String → PVal → Dict
  | [], k, v => [(k, v)]
  | (k', v') :: rest, k, v =>
    if k' = k then (k, v) :: rest else (k', v') :: dictSet rest k v

/-- Python `d.update(r)`: assign every entry of `r` into `d`, in `r`'s order. -/
def dictUpdate (d : Dict) (r : Dict) : Dict :=
  r.foldl (fun acc kv => dictSet acc kv.1 kv.2) d

/-- Split a character list at every occurrence of `c`, keeping empty pieces —
the semantics of Python's `str.split(sep)` for a one-character separator. -/
def splitOnChar (c : Char) : List Char → List (List Char)
  | [] => [[]]
  | x :: xs =>
    match splitOnChar c xs with
    | [] => [[x]]
    | r :: rs => if x = c then [] :: r :: rs else (x :: r) :: rs

/-- Python `item.split('=')`. -/
def pySplitEq (s : String) : List String :=
  (splitOnChar '=' s.data).map (fun cs => String.mk cs)

/-- Python `'=' in item`. -/
def pyContainsEq (s : String) : Bool :=
  s.data.any (fun ch => ch = '=')

/-! ### Embedding of `src/auth/ldap.py` -/

/-- One entry of an `ldap.search_s` result: a pair of the entry's DN
(`result[i][0]`) and its attribute mapping (`result[i][1]`). -/
abbrev LdapEntry := String × List (String × List String)

/-- The collaborators of `auth`: the configured filter template
(`__opts__['filter']`), jinja2 rendering (`_render_template`), the service
bind made by `_LDAPConnection` with the configured `binddn`/`bindpw`, the
directory search `search_s` applied to the rendered filter (with the
configured base DN and scope), and the confirmatory bind made by
`_LDAPConnection` as a function of the candidate DN and the password. -/
structure AuthEnv where
  opts_filter : String
  render : String → String → String
  serviceBind : Except String Unit
  search : String → Except String (List LdapEntry)
  userBind : String → String → Except String Unit

/-- `auth(username, password)` from `src/auth/ldap.py`.

Mirrors the source line by line: render the filter template with `username`;
build the initial `_LDAPConnection` (a bind failure there raises
`CommandExecutionError`); run `search_s` (its exceptions propagate);
`len(result) < 1` and `len(result) > 1` return `False`; otherwise take
`authdn = result[0][0]` and re-bind with `(authdn, password)`, where the bare
`except:` turns any failure into `False` and success returns `True`. -/
def auth (env : AuthEnv) (username password : String) : Except PyErr Bool :=
  let filter := env.render env.opts_filter username
  match env.serviceBind with
  | .error _ => .error (.commandExecutionError "Failed to bind to LDAP server")
  | .ok _ =>
    match env.search filter with
    | .error e => .error (.ldapError e)
    | .ok result =>
      if result.length < 1 then .ok false
      else if result.length > 1 then .ok false
      else
        match result with
        | [] => .ok false
        | entry :: _ =>
          match env.userBind entry.1 password with
          | .error _ => .ok false
          | .ok _ => .ok true

/-! ### Embedding of `src/pillar/pillar_ldap.py` -/

/-- A per-source search specification from the pillar config file: the dict
`conf` passed to `_do_search`.  Each field is `none` when the key is absent
(`_config` returns `None` on `KeyError`; `conf['filter']` with no `'filter'`
key raises `KeyError`, caught and re-raised in `_do_search`). -/
structure Conf where
  server : Option String := none
  port : Option String := none
  tls : Option Bool := none
  binddn : Option String := none
  bindpw : Option String := none
  filter : Option String := none
  dn : Option String := none
  scope : Option Nat := none
  attrs : Option (List String) := none

/-- The directory-search collaborator of the pillar module: the whole
expression `__salt__['ldap.search'](filter, dn, scope, attrs,
**connargs)['results'][0][1]` as a function of the search specification
(every argument passed is a field of `conf`).  `.ok` carries the first
entry's attribute mapping `raw_result`; `.error` is any exception raised by
the call or the indexing. -/
structure SearchEnv where
  search : Conf → Except String (List (String × List String))

/-- The inner `for item in data.get(key):` loop of `_result_to_dict`, run for
a key listed in `attrs`.  `allVals` is `data.get(key)` (the full value list,
re-read in the `else` branch).  An item containing `'='` is tuple-unpacked
from `item.split('=')`; a split of length ≠ 2 raises `ValueError` (Python's
"too many values to unpack" / "not enough values to unpack"). -/
def flatten_items (key : String) (allVals : List String) :
    Dict → List String → Except PyErr Dict
  | result, [] => .ok result
  | result, item :: rest =>
    if pyContainsEq item then
      match pySplitEq item with
      | [k, v] => flatten_items key allVals (dictSet result k (.str v)) rest
      | _ => .error (.valueError "unpack")
    else flatten_items key allVals (dictSet result key (.list allVals)) rest

/-- The outer `for key in data:` loop of `_result_to_dict`. -/
def result_to_dict_loop (attrsL : List String) :
    Dict → List (String × List String) → Except PyErr Dict
  | result, [] => .ok result
  | result, (key, vals) :: rest =>
    if key ∈ attrsL then
      match flatten_items key vals result vals with
      | .ok result' => result_to_dict_loop attrsL result' rest
      | .error e => .error e
    else result_to_dict_loop attrsL (dictSet result key (.list vals)) rest

/-- `_result_to_dict(data, attrs)` from `src/pillar/pillar_ldap.py`.
`if not attrs: attrs = []` collapses an absent (`None`) or empty `attrs`
to the empty list. -/
def result_to_dict (data : List (String × List String))
    (attrs : Option (List String)) : Except PyErr Dict :=
  result_to_dict_loop (attrs.getD []) [] data

/-- `_do_search(conf)` from `src/pillar/pillar_ldap.py`.

`conf['filter']` missing: the code executes `raise SaltInvocationError(...)`,
but `SaltInvocationError` is never imported in this module, so the raise site
itself fails with Python `NameError: name 'SaltInvocationError' is not
defined`.  A search exception is caught broadly and yields `{}`.  When the
search succeeds, `result` is assigned only under `if raw_result:`; for a
falsy (empty) `raw_result` the final `return result` reads an unassigned
local and raises `UnboundLocalError`. -/
def do_search (env : SearchEnv) (conf : Conf) : Except PyErr Dict :=
  match conf.filter with
  | none => .error (.nameError "SaltInvocationError")
  | some _ =>
    match env.search conf with
    | .error _ => .ok []
    | .ok raw_result =>
      if raw_result.isEmpty then .error (.unboundLocalError "result")
      else result_to_dict raw_result conf.attrs

/-- The parsed pillar config `opts`: the `search_order` list and the mapping
from source name to its search specification (`opts[source]`, `none` when the
key is absent, in which case the subscript raises `KeyError`). -/
structure Opts where
  search_order : List String
  sources : String → Option Conf

/-- The `for source in opts['search_order']:` loop of `ext_pillar`, carrying
the accumulator `data`; `if result: data.update(result)`. -/
def ext_pillar_loop (env : SearchEnv) (opts : Opts) :
    Dict → List String → Except PyErr Dict
  | data, [] => .ok data
  | data, source :: rest =>
    match opts.sources source with
    | none => .error (.keyError source)
    | some config =>
      match do_search env config with
      | .error e => .error e
      | .ok result =>
        ext_pillar_loop env opts
          (if result.isEmpty then data else dictUpdate data result) rest

/-- `ext_pillar(config_file)` from `src/pillar/pillar_ldap.py`.

`fileConfig` stands for the file-system/template/YAML collaborators:
`some opts` when `os.path.isfile(config_file)` holds and the file renders and
parses into `opts`; `none` when the file does not exist.  In the latter case
the source only logs a debug message, `opts` is never assigned, and the
unconditional `opts['search_order']` below the branch raises
`UnboundLocalError`. -/
def ext_pillar (env : SearchEnv) (fileConfig : Option Opts) :
    Except PyErr Dict :=
  match fileConfig with
  | none => .error (.unboundLocalError "opts")
  | some opts => ext_pillar_loop env opts [] opts.search_order

/-! ### Concrete collaborator instances (used by the witness theorems) -/

/-- Authenticator collaborators for a directory holding exactly one entry for
the rendered filter, whose confirmatory bind accepts the credentials. -/
def authEnvOne : AuthEnv :=
  { opts_filter := "emailAddress={{ username }}"
    render := fun _ username => username
    serviceBind := .ok ()
    search := fun _ => .ok [("uid=alice,o=acme,c=gb", [("cn", ["Alice"])])]
    userBind := fun _ _ => .ok () }

/-- Authenticator collaborators whose directory search finds no entry. -/
def authEnvNone : AuthEnv :=
  { authEnvOne with search := fun _ => .ok [] }

/-- Pillar search specifications used by the witnesses. -/
def confNtp : Conf :=
  { filter := some "(cn=host1)", dn := some "ou=hosts,o=acme"
    attrs := some ["saltKeyValue"] }

def confNtp2 : Conf :=
  { filter := some "(cn=host2)", dn := some "ou=hosts,o=acme"
    attrs := some ["saltKeyValue"] }

def confEmpty : Conf :=
  { filter := some "(cn=empty)", attrs := some ["saltKeyValue"] }

def confMulti : Conf :=
  { filter := some "(cn=multi)", attrs := some ["saltKeyValue"] }

def confDown : Conf :=
  { filter := some "(cn=down)" }

def confNoFilter : Conf :=
  { dn := some "ou=hosts,o=acme" }

/-- A directory-search collaborator answering by the filter of the
specification: two hosts with `ntpserver=` values, one entry with an empty
attribute mapping, one entry with a double-`'='` value, and an exception for
anything else. -/
def pillarEnv : SearchEnv :=
  ⟨fun conf =>
    if conf.filter = some "(cn=host1)" then
      .ok [("saltKeyValue", ["ntpserver=ntp1.acme.local"])]
    else if conf.filter = some "(cn=host2)" then
      .ok [("saltKeyValue", ["ntpserver=ntp2.acme.local"])]
    else if conf.filter = some "(cn=empty)" then
      .ok []
    else if conf.filter = some "(cn=multi)" then
      .ok [("saltKeyValue", ["a=b=c"])]
    else
      .error "ldap down"⟩

/-- A pillar config with two sources that both produce the key `ntpserver`. -/
def optsTwo : Opts :=
  { search_order := ["ntp1", "ntp2"]
    sources := fun s =>
      if s = "ntp1" then some confNtp
      else if s = "ntp2" then some confNtp2
      else none }

/-- A pillar config whose first source's search raises an exception. -/
def optsDownFirst : Opts :=
  { search_order := ["down", "ntp1"]
    sources := fun s =>
      if s = "down" then some confDown
      else if s = "ntp1" then some confNtp
      else none }

/-- A pillar config whose first source returns a double-`'='` composite
value. -/
def optsMulti : Opts :=
  { search_order := ["bad", "ntp1"]
    sources := fun s =>
      if s = "bad" then some confMulti
      else if s = "ntp1" then some confNtp
      else none }

/-! ### Dictionary lemmas -/

theorem isEmpty_false_of_ne_nil {α : Type _} (l : List α) (h : l ≠ []) :
    l.isEmpty = false := by
  cases l with
  | nil => exact absurd rfl h
  | cons x xs => rfl

theorem map_fst_pairs (pairs : List (String × String)) :
    (pairs.map (fun q => (q.1, PVal.str q.2))).map Prod.fst =
      pairs.map Prod.fst := by
  induction pairs <;> simp_all

theorem dictGet_dictSet (d : Dict) (k k' : String) (v : PVal) :
    dictGet (dictSet d k v) k' = if k' = k then some v else dictGet d k' := by
  induction d with
  | nil =>
    by_cases h : k' = k
    · simp_all [dictSet, dictGet]
    · simp_all [dictSet, dictGet]
      exact fun h2 => absurd h2.symm h
  | cons p rest ih =>
    obtain ⟨k1, v1⟩ := p
    by_cases h1 : k1 = k <;> by_cases h2 : k' = k <;> by_cases h3 : k1 = k' <;>
      simp_all [dictSet, dictGet]

theorem dictGet_eq_none_of_not_mem (d : Dict) (k : String)
    (h : k ∉ d.map Prod.fst) : dictGet d k = none := by
  induction d with
  | nil => rfl
  | cons p rest ih =>
    simp only [List.map_cons, List.mem_cons, not_or] at h
    simp [dictGet, Ne.symm h.1, ih h.2]

theorem dictSet_map_fst (d : Dict) (k : String) (v : PVal) :
    (dictSet d k v).map Prod.fst =
      if k ∈ d.map Prod.fst then d.map Prod.fst
      else d.map Prod.fst ++ [k] := by
  induction d with
  | nil => simp [dictSet]
  | cons p rest ih =>
    obtain ⟨k1, v1⟩ := p
    by_cases h1 : k1 = k
    · subst h1; simp [dictSet]
    · simp only [dictSet, if_neg h1, List.map_cons, ih, List.mem_cons]
      by_cases h2 : k ∈ rest.map Prod.fst <;>
        simp [h2, Ne.symm h1]

theorem nodup_dictSet (d : Dict) (k : String) (v : PVal)
    (h : (d.map Prod.fst).Nodup) : ((dictSet d k v).map Prod.fst).Nodup := by
  rw [dictSet_map_fst]
  by_cases hm : k ∈ d.map Prod.fst
  · simpa [hm] using h
  · simp [hm, List.nodup_append, h]

theorem dictGet_dictUpdate_of_none (d r : Dict) (k : String)
    (h : dictGet r k = none) : dictGet (dictUpdate d r) k = dictGet d k := by
  induction r generalizing d with
  | nil => rfl
  | cons p r' ih =>
    obtain ⟨k1, v1⟩ := p
    simp only [dictGet] at h
    by_cases h1 : k1 = k
    · simp [h1] at h
    · rw [if_neg h1] at h
      show dictGet (dictUpdate (dictSet d k1 v1) r') k = _
      rw [ih _ h, dictGet_dictSet, if_neg (fun hh => h1 hh.symm)]

theorem dictGet_dictUpdate_of_some (d r : Dict) (k : String) (v : PVal)
    (hnd : (r.map Prod.fst).Nodup) (h : dictGet r k = some v) :
    dictGet (dictUpdate d r) k = some v := by
  induction r generalizing d with
  | nil => simp [dictGet] at h
  | cons p r' ih =>
    obtain ⟨k1, v1⟩ := p
    simp only [List.map_cons, List.nodup_cons] at hnd
    simp only [dictGet] at h
    by_cases h1 : k1 = k
    · subst h1
      rw [if_pos rfl] at h
      show dictGet (dictUpdate (dictSet d k1 v1) r') k1 = _
      rw [dictGet_dictUpdate_of_none _ _ _
            (dictGet_eq_none_of_not_mem _ _ hnd.1),
          dictGet_dictSet, if_pos rfl, h]
    · rw [if_neg h1] at h
      exact ih _ hnd.2 h

theorem dictGet_ne_nil (d : Dict) (k : String) (v : PVal)
    (h : dictGet d k = some v) : d ≠ [] := by
  intro he
  subst he
  simp [dictGet] at h

/-! ### Invariants of the flattening loops -/

theorem flatten_items_nodup (key : String) (allVals : List String) :
    ∀ (items : List String) (result r : Dict),
      (result.map Prod.fst).Nodup →
      flatten_items key allVals result items = .ok r →
      (r.map Prod.fst).Nodup := by
  intro items
  induction items with
  | nil =>
    intro result r h heq
    simp only [flatten_items] at heq
    injection heq with heq
    subst heq
    exact h
  | cons item rest ih =>
    intro result r h heq
    simp only [flatten_items] at heq
    split at heq
    · split at heq
      · exact ih _ _ (nodup_dictSet _ _ _ h) heq
      · cases heq
    · exact ih _ _ (nodup_dictSet _ _ _ h) heq

theorem result_to_dict_loop_nodup (attrsL : List String) :
    ∀ (data : List (String × List String)) (result r : Dict),
      (result.map Prod.fst).Nodup →
      result_to_dict_loop attrsL result data = .ok r →
      (r.map Prod.fst).Nodup := by
  intro data
  induction data with
  | nil =>
    intro result r h heq
    simp only [result_to_dict_loop] at heq
    injection heq with heq
    subst heq
    exact h
  | cons kv rest ih =>
    obtain ⟨key, vals⟩ := kv
    intro result r h heq
    simp only [result_to_dict_loop] at heq
    split at heq
    · split at heq
      · next result' hflat =>
        exact ih _ _ (flatten_items_nodup _ _ _ _ _ h hflat) heq
      · cases heq
    · exact ih _ _ (nodup_dictSet _ _ _ h) heq

theorem result_to_dict_nodup (data : List (String × List String))
    (attrs : Option (List String)) (r : Dict)
    (h : result_to_dict data attrs = .ok r) : (r.map Prod.fst).Nodup :=
  result_to_dict_loop_nodup _ data [] r (by simp) h

theorem do_search_nodup (env : SearchEnv) (conf : Conf) (r : Dict)
    (h : do_search env conf = .ok r) : (r.map Prod.fst).Nodup := by
  simp only [do_search] at h
  split at h
  · cases h
  · split at h
    · injection h with h
      subst h
      simp
    · split at h
      · cases h
      · exact result_to_dict_nodup _ _ _ h

theorem flatten_items_bad (key : String) (allVals : List String) :
    ∀ (items : List String) (result : Dict),
      (∃ item ∈ items, pyContainsEq item = true ∧ 3 ≤ (pySplitEq item).length) →
      flatten_items key allVals result items = .error (.valueError "unpack") := by
  intro items
  induction items with
  | nil =>
    intro result h
    simp at h
  | cons x rest ih =>
    intro result h
    obtain ⟨item, hmem, hc, hlen⟩ := h
    rcases List.mem_cons.mp hmem with hx | hr
    · subst hx
      simp only [flatten_items]
      rw [if_pos hc]
      split
      · next k v hsplit =>
        rw [hsplit] at hlen
        simp at hlen
      · rfl
    · simp only [flatten_items]
      split
      · split
        · exact ih _ ⟨item, hr, hc, hlen⟩
        · rfl
      · exact ih _ ⟨item, hr, hc, hlen⟩

theorem flatten_items_error_shape (key : String) (allVals : List String) :
    ∀ (items : List String) (result : Dict) (e : PyErr),
      flatten_items key allVals result items = .error e →
      e = .valueError "unpack" := by
  intro items
  induction items with
  | nil =>
    intro result e heq
    cases heq
  | cons x rest ih =>
    intro result e heq
    simp only [flatten_items] at heq
    split at heq
    · split at heq
      · exact ih _ _ heq
      · injection heq with heq
        exact heq.symm
    · exact ih _ _ heq

theorem result_to_dict_loop_bad (attrsL : List String) :
    ∀ (data : List (String × List String)) (result : Dict),
      (∃ attr vals, (attr, vals) ∈ data ∧ attr ∈ attrsL ∧
        ∃ item ∈ vals, pyContainsEq item = true ∧ 3 ≤ (pySplitEq item).length) →
      result_to_dict_loop attrsL result data = .error (.valueError "unpack") := by
  intro data
  induction data with
  | nil =>
    intro result h
    simp at h
  | cons kv rest ih =>
    obtain ⟨key, vals⟩ := kv
    intro result h
    obtain ⟨attr, avals, hmem, hattr, item, hitem, hc, hlen⟩ := h
    rcases List.mem_cons.mp hmem with hx | hr
    · obtain ⟨h1, h2⟩ := Prod.mk.injEq .. ▸ hx
      subst h1
      subst h2
      simp only [result_to_dict_loop]
      rw [if_pos hattr, flatten_items_bad _ _ _ _ ⟨item, hitem, hc, hlen⟩]
    · simp only [result_to_dict_loop]
      split
      · split
        · exact ih _ ⟨attr, avals, hr, hattr, item, hitem, hc, hlen⟩
        · next e heq =>
          rw [flatten_items_error_shape _ _ _ _ _ heq]
      · exact ih _ ⟨attr, avals, hr, hattr, item, hitem, hc, hlen⟩

/-! ### Flattening of well-formed composite values -/

theorem flatten_items_pairs (key : String) (allVals : List String) :
    ∀ (vals : List String) (pairs : List (String × String)) (result : Dict),
      vals.map pySplitEq = pairs.map (fun p => [p.1, p.2]) →
      (∀ item ∈ vals, pyContainsEq item = true) →
      flatten_items key allVals result vals =
        .ok (dictUpdate result (pairs.map (fun p => (p.1, PVal.str p.2)))) := by
  intro vals
  induction vals with
  | nil =>
    intro pairs result hform _
    cases pairs with
    | nil => simp [flatten_items, dictUpdate]
    | cons p ps => simp at hform
  | cons item rest ih =>
    intro pairs result hform hcont
    cases pairs with
    | nil => simp at hform
    | cons p ps =>
      simp only [List.map_cons, List.cons.injEq] at hform
      obtain ⟨hsplit, hrest⟩ := hform
      simp only [flatten_items]
      rw [if_pos (hcont item (List.mem_cons_self item rest)), hsplit]
      show flatten_items key allVals (dictSet result p.1 (PVal.str p.2)) rest = _
      rw [ih ps _ hrest (fun x hx => hcont x (List.mem_cons_of_mem _ hx))]
      simp [dictUpdate]

/-! ### Claim theorems -/

/-- C1: for every configuration and credentials pair where the service bind
succeeds and the directory search for the rendered filter returns exactly one
entry, `auth username password` returns `true` if and only if the
confirmatory bind with the found entry's DN and the user-supplied password
succeeds; any exception raised by that second bind makes `auth` return
`false` rather than propagate. -/
theorem auth_single_match (env : AuthEnv) (username password : String)
    (e : LdapEntry)
    (hbind : env.serviceBind = .ok ())
    (hsearch : env.search (env.render env.opts_filter username) = .ok [e]) :
    (auth env username password = .ok true ↔
      env.userBind e.1 password = .ok ()) ∧
    (∀ err, env.userBind e.1 password = .error err →
      auth env username password = .ok false) := by
  refine ⟨?_, ?_⟩
  · cases hub : env.userBind e.1 password with
    | ok u =>
      cases u
      simp [auth, hbind, hsearch, hub]
    | error err =>
      simp [auth, hbind, hsearch, hub]
  · intro err herr
    simp [auth, hbind, hsearch, herr]

/-- Witness for C1: with a directory holding exactly one entry for Alice and
a user bind that accepts the password, `auth` returns `true`. -/
theorem auth_single_match_witness :
    auth authEnvOne "alice" "secret" = .ok true :=
  (auth_single_match authEnvOne "alice" "secret"
      ("uid=alice,o=acme,c=gb", [("cn", ["Alice"])]) rfl rfl).1.mpr rfl

/-- C2: for every configuration and credentials pair where the service bind
succeeds and the directory search returns zero entries or more than one
entry, `auth` returns `false`, and the result does not depend on the
user-bind collaborator — the second (user-credential) bind is never
attempted. -/
theorem auth_no_single_match (env : AuthEnv)
    (g : String → String → Except String Unit)
    (username password : String) (r : List LdapEntry)
    (hbind : env.serviceBind = .ok ())
    (hsearch : env.search (env.render env.opts_filter username) = .ok r)
    (hr : r.length ≠ 1) :
    auth env username password = .ok false ∧
    auth env username password =
      auth { env with userBind := g } username password := by
  rcases r with _ | ⟨e1, _ | ⟨e2, rest⟩⟩
  · constructor <;> simp [auth, hbind, hsearch]
  · simp at hr
  · constructor <;> simp [auth, hbind, hsearch]

/-- Witness for C2: with a search finding no entry, `auth` returns `false`,
whatever the user-bind collaborator would answer. -/
theorem auth_no_single_match_witness :
    auth authEnvNone "bob" "pw" = .ok false ∧
    auth authEnvNone "bob" "pw" =
      auth { authEnvNone with userBind := fun _ _ => .error "reject" }
        "bob" "pw" :=
  auth_no_single_match authEnvNone (fun _ _ => .error "reject") "bob" "pw" []
    rfl rfl (by decide)

/-- C3 counterexample: the composite attribute `"a"` with the single value
`"a=1"` — a value of the exact `key=value` form (one `'='`) — produces the
result `{"a": "1"}`, which does contain an entry named after the composite
attribute itself, contradicting the claim that no such entry is produced
when all values have that form. -/
theorem result_to_dict_composite_counterexample :
    pyContainsEq "a=1" = true ∧
    pySplitEq "a=1" = ["a", "1"] ∧
    result_to_dict [("a", ["a=1"])] (some ["a"]) = .ok [("a", PVal.str "1")] ∧
    dictGet [("a", PVal.str "1")] "a" = some (PVal.str "1") :=
  ⟨rfl, by decide, rfl, by decide⟩

/-- C3 (amended): for every attribute mapping and every attribute name
listed as composite in `attrs`, flattening turns each value of the form
`key=value` (one `'='`) into an independent top-level entry
`result[key] = value` — the assignment `dictSet result k (str v)`, whatever
the accumulator and whatever values precede or follow — and no entry named
after the composite attribute itself is produced when all its values have
that form, provided no value's key part equals the attribute's own name:
processing the attribute's entry, at any position in any mapping and over
any accumulator, is exactly the chain of those per-value assignments, and it
leaves the accumulator's entry named after the attribute untouched. -/
theorem result_to_dict_composite (attrs : Option (List String))
    (attr : String) (vals : List String)
    (hattr : attr ∈ attrs.getD []) :
    (∀ (item k v : String) (result : Dict) (rest : List String),
      pyContainsEq item = true → pySplitEq item = [k, v] →
      flatten_items attr vals result (item :: rest) =
        flatten_items attr vals (dictSet result k (PVal.str v)) rest) ∧
    (∀ (pairs : List (String × String)) (result : Dict)
        (rest : List (String × List String)),
      vals.map pySplitEq = pairs.map (fun p => [p.1, p.2]) →
      (∀ item ∈ vals, pyContainsEq item = true) →
      result_to_dict_loop (attrs.getD []) result ((attr, vals) :: rest) =
        result_to_dict_loop (attrs.getD [])
          (pairs.foldl (fun r p => dictSet r p.1 (PVal.str p.2)) result)
          rest ∧
      (attr ∉ pairs.map Prod.fst →
        dictGet (pairs.foldl (fun r p => dictSet r p.1 (PVal.str p.2))
            result) attr = dictGet result attr)) := by
  have hfold : ∀ (pairs : List (String × String)) (result : Dict),
      dictUpdate result (pairs.map (fun p => (p.1, PVal.str p.2))) =
        pairs.foldl (fun r p => dictSet r p.1 (PVal.str p.2)) result := by
    intro pairs result
    simp [dictUpdate, List.foldl_map]
  refine ⟨?_, ?_⟩
  · intro item k v result rest hc hsplit
    simp only [flatten_items]
    rw [if_pos hc, hsplit]
  · intro pairs result rest hform hcont
    constructor
    · simp only [result_to_dict_loop]
      rw [if_pos hattr, flatten_items_pairs _ _ _ _ _ hform hcont, hfold]
    · intro hnoattr
      rw [← hfold, dictGet_dictUpdate_of_none]
      exact dictGet_eq_none_of_not_mem _ _
        (by rw [map_fst_pairs]; exact hnoattr)

/-- Witness for C3 (amended): the composite attribute `saltKeyValue` with
values `["a=1", "b=2"]` flattens, from the empty accumulator, to the keys
`a ↦ "1"` and `b ↦ "2"`, with no `saltKeyValue` entry. -/
theorem result_to_dict_composite_witness :
    result_to_dict [("saltKeyValue", ["a=1", "b=2"])] (some ["saltKeyValue"]) =
      .ok [("a", PVal.str "1"), ("b", PVal.str "2")] ∧
    dictGet [("a", PVal.str "1"), ("b", PVal.str "2")] "a" =
      some (PVal.str "1") ∧
    dictGet [("a", PVal.str "1"), ("b", PVal.str "2")] "b" =
      some (PVal.str "2") ∧
    dictGet [("a", PVal.str "1"), ("b", PVal.str "2")] "saltKeyValue" =
      none := by
  have h := (result_to_dict_composite (some ["saltKeyValue"]) "saltKeyValue"
      ["a=1", "b=2"] (by decide)).2
    [("a", "1"), ("b", "2")] [] [] (by decide) (by decide)
  refine ⟨?_, by decide, by decide, ?_⟩
  · exact h.1
  · exact h.2 (by decide)

/-- C4: when the declared search order is `[s1, s2]` and both sources'
searches succeed and produce the key `k`, `ext_pillar` merges the flattened
results in order with shallow last-write-wins semantics: the final mapping's
value for `k` is the one from `s2`. -/
theorem ext_pillar_last_wins (env : SearchEnv) (opts : Opts)
    (s1 s2 : String) (conf1 conf2 : Conf) (r1 r2 : Dict) (k : String)
    (v1 v2 : PVal)
    (horder : opts.search_order = [s1, s2])
    (hs1 : opts.sources s1 = some conf1)
    (hs2 : opts.sources s2 = some conf2)
    (hr1 : do_search env conf1 = .ok r1)
    (hr2 : do_search env conf2 = .ok r2)
    (hk1 : dictGet r1 k = some v1)
    (hk2 : dictGet r2 k = some v2) :
    ext_pillar env (some opts) = .ok (dictUpdate (dictUpdate [] r1) r2) ∧
    dictGet (dictUpdate (dictUpdate [] r1) r2) k = some v2 := by
  have hne1 : r1.isEmpty = false :=
    isEmpty_false_of_ne_nil _ (dictGet_ne_nil _ _ _ hk1)
  have hne2 : r2.isEmpty = false :=
    isEmpty_false_of_ne_nil _ (dictGet_ne_nil _ _ _ hk2)
  constructor
  · simp only [ext_pillar, horder, ext_pillar_loop, hs1, hs2, hr1, hr2,
      hne1, hne2, Bool.false_eq_true, if_false]
  · exact dictGet_dictUpdate_of_some _ _ _ _
      (do_search_nodup env conf2 r2 hr2) hk2

/-- Witness for C4: both sources of `optsTwo` produce `ntpserver`; the final
mapping holds the second source's value. -/
theorem ext_pillar_last_wins_witness :
    ext_pillar pillarEnv (some optsTwo) =
      .ok [("ntpserver", PVal.str "ntp2.acme.local")] ∧
    dictGet [("ntpserver", PVal.str "ntp2.acme.local")] "ntpserver" =
      some (PVal.str "ntp2.acme.local") := by
  have h := ext_pillar_last_wins pillarEnv optsTwo "ntp1" "ntp2"
    confNtp confNtp2
    [("ntpserver", PVal.str "ntp1.acme.local")]
    [("ntpserver", PVal.str "ntp2.acme.local")]
    "ntpserver" (PVal.str "ntp1.acme.local") (PVal.str "ntp2.acme.local")
    rfl rfl rfl rfl rfl (by decide) (by decide)
  exact ⟨h.1, h.2⟩

/-- C5 (evaluating the code at the failing input): when the config file does
not exist, `opts` is assigned only inside the file-exists branch, so the
unconditional `opts['search_order']` raises `UnboundLocalError` instead of
producing the empty result the specification intends. -/
theorem ext_pillar_missing_file (env : SearchEnv) :
    ext_pillar env none = .error (.unboundLocalError "opts") := rfl

/-- C6 (evaluating the code at the failing input): for a search specification
without a `'filter'` key, `_do_search` executes
`raise SaltInvocationError('missing filter')`, but `SaltInvocationError` is
never imported in `pillar_ldap.py`, so the raise site fails with `NameError`
instead of the intended invocation error. -/
theorem do_search_missing_filter (env : SearchEnv) (conf : Conf)
    (h : conf.filter = none) :
    do_search env conf = .error (.nameError "SaltInvocationError") := by
  simp only [do_search, h]

/-- Witness for C6: a concrete specification with no filter. -/
theorem do_search_missing_filter_witness :
    do_search pillarEnv confNoFilter =
      .error (.nameError "SaltInvocationError") :=
  do_search_missing_filter pillarEnv confNoFilter rfl

/-- C7: when the directory-search invocation for a source raises any
exception, `_do_search` returns the empty mapping for that source, and
`ext_pillar` continues with the remaining sources exactly as if the failing
source were absent, instead of aborting the fetch. -/
theorem do_search_exception_empty (env : SearchEnv) (conf : Conf)
    (f e : String)
    (hf : conf.filter = some f)
    (he : env.search conf = .error e) :
    do_search env conf = .ok [] ∧
    ∀ (opts : Opts) (s1 : String) (rest : List String),
      opts.sources s1 = some conf →
      opts.search_order = s1 :: rest →
      ext_pillar env (some opts) = ext_pillar_loop env opts [] rest := by
  have hds : do_search env conf = .ok [] := by
    simp only [do_search, hf, he]
  refine ⟨hds, ?_⟩
  intro opts s1 rest hsrc horder
  simp only [ext_pillar, horder, ext_pillar_loop, hsrc, hds, List.isEmpty_nil,
    if_true]

/-- Witness for C7: the failing source `down` of `optsDownFirst` contributes
nothing and processing proceeds to the remaining source. -/
theorem do_search_exception_empty_witness :
    do_search pillarEnv confDown = .ok [] ∧
    ext_pillar pillarEnv (some optsDownFirst) =
      ext_pillar_loop pillarEnv optsDownFirst [] ["ntp1"] := by
  obtain ⟨h1, h2⟩ :=
    do_search_exception_empty pillarEnv confDown "(cn=down)" "ldap down"
      rfl rfl
  exact ⟨h1, h2 optsDownFirst "down" ["ntp1"] rfl rfl⟩

/-- C8: an attribute not listed as composite is mapped to its original
ordered list of values unchanged: processing that attribute performs exactly
the assignment `result[key] = data.get(key)` with the untouched value list
(whatever mapping it occurs in), and the mapping `cn:["Alice"]`-style
singleton flattens to itself. -/
theorem result_to_dict_noncomposite (key : String) (vals : List String)
    (attrs : Option (List String))
    (h : key ∉ attrs.getD []) :
    (∀ (result : Dict) (rest : List (String × List String)),
      result_to_dict_loop (attrs.getD []) result ((key, vals) :: rest) =
        result_to_dict_loop (attrs.getD [])
          (dictSet result key (.list vals)) rest) ∧
    result_to_dict [(key, vals)] attrs = .ok [(key, PVal.list vals)] := by
  constructor
  · intro result rest
    simp only [result_to_dict_loop, if_neg h]
  · simp only [result_to_dict, result_to_dict_loop, if_neg h]
    rfl

/-- Witness for C8: the non-composite attribute `cn` with value `["Alice"]`
flattens to itself. -/
theorem result_to_dict_noncomposite_witness :
    result_to_dict [("cn", ["Alice"])] (some ["saltKeyValue"]) =
      .ok [("cn", PVal.list ["Alice"])] :=
  (result_to_dict_noncomposite "cn" ["Alice"] (some ["saltKeyValue"])
    (by decide)).2

/-- C9: when the directory search succeeds but the first matched entry's
attribute mapping is empty (falsy), the `if raw_result:` guard skips the
assignment of `result`, and the final `return result` reads the unassigned
local, raising `UnboundLocalError` instead of returning an empty mapping. -/
theorem do_search_empty_result_raises (env : SearchEnv) (conf : Conf)
    (f : String)
    (hf : conf.filter = some f)
    (hs : env.search conf = .ok []) :
    do_search env conf = .error (.unboundLocalError "result") := by
  simp only [do_search, hf, hs, List.isEmpty_nil, if_true]

/-- Witness for C9: a search returning an entry with an empty attribute
mapping. -/
theorem do_search_empty_result_raises_witness :
    do_search pillarEnv confEmpty = .error (.unboundLocalError "result") :=
  do_search_empty_result_raises pillarEnv confEmpty "(cn=empty)" rfl rfl

/-- C10: a composite attribute value containing two or more `'='` characters
makes the two-variable unpacking of `item.split('=')` raise `ValueError`;
the `_result_to_dict` call sits outside the broad `except` around the
search, so the error propagates through `_do_search` and aborts the entire
`ext_pillar` fetch. -/
theorem composite_double_eq_aborts (env : SearchEnv) (conf : Conf)
    (opts : Opts) (s1 : String) (rest : List String) (f : String)
    (data : List (String × List String)) (attr item : String)
    (vals : List String)
    (hmem : (attr, vals) ∈ data)
    (hattr : attr ∈ conf.attrs.getD [])
    (hitem : item ∈ vals)
    (hc : pyContainsEq item = true)
    (hlen : 3 ≤ (pySplitEq item).length)
    (hf : conf.filter = some f)
    (hs : env.search conf = .ok data)
    (horder : opts.search_order = s1 :: rest)
    (hsrc : opts.sources s1 = some conf) :
    result_to_dict data conf.attrs = .error (.valueError "unpack") ∧
    do_search env conf = .error (.valueError "unpack") ∧
    ext_pillar env (some opts) = .error (.valueError "unpack") := by
  have hrd : result_to_dict data conf.attrs = .error (.valueError "unpack") :=
    result_to_dict_loop_bad _ data []
      ⟨attr, vals, hmem, hattr, item, hitem, hc, hlen⟩
  have hne : data ≠ [] := by
    rintro rfl
    simp at hmem
  have hds : do_search env conf = .error (.valueError "unpack") := by
    simp only [do_search, hf, hs, isEmpty_false_of_ne_nil _ hne,
      Bool.false_eq_true, if_false]
    exact hrd
  refine ⟨hrd, hds, ?_⟩
  simp only [ext_pillar, horder, ext_pillar_loop, hsrc, hds]

/-- Witness for C10: the value `"a=b=c"` under the composite attribute
`saltKeyValue` aborts flattening, the source's search, and the whole
`ext_pillar` fetch of `optsMulti`. -/
theorem composite_double_eq_aborts_witness :
    result_to_dict [("saltKeyValue", ["a=b=c"])] (some ["saltKeyValue"]) =
      .error (.valueError "unpack") ∧
    do_search pillarEnv confMulti = .error (.valueError "unpack") ∧
    ext_pillar pillarEnv (some optsMulti) = .error (.valueError "unpack") := by
  have h := composite_double_eq_aborts pillarEnv confMulti optsMulti "bad"
    ["ntp1"] "(cn=multi)" [("saltKeyValue", ["a=b=c"])] "saltKeyValue"
    "a=b=c" ["a=b=c"] (by decide) (by decide) (by decide) (by decide)
    (by decide) rfl rfl rfl rfl
  exact ⟨h.1, h.2.1, h.2.2⟩

end SaltLdap
